import Mathlib

/-!
# Thermal PID controller (`src/api.go`)

A shallow embedding of package `api`: the `PID` controller state with its four
methods, the HTTP tuning handler, the sensor reader and one iteration of the
`PidDaemon` loop.

Modelling conventions.

* `float64` values are exact rationals (`ℚ`); rounding, infinities and NaN are
  outside the model.  `int64` timestamps are `Int` (no arithmetic is done on them).
* Each `PID` method takes `pid.lock` on entry and releases it on return, so a
  method call is one atomic step on the controller state: a method is a function
  from the state before the call to the result and the state after it.
-/

namespace Api

/-! ## Controller state -/

/-- The `PID` struct (`src/api.go` lines 89-95) without its `lock` field, which is
realised by the atomicity of the methods. -/
structure PID where
  Kp : ℚ
  Ki : ℚ
  Kd : ℚ
  previousError : ℚ
  integral : ℚ
  updated : Bool
  deriving DecidableEq, Repr

/-- Method `func (pid *PID) Calculate(setpoint, temperature float64, timestamp int64) float64`
(lines 97-108).  Returns the output and the state after the call. -/
def PID.Calculate (pid : PID) (setpoint temperature : ℚ) (timestamp : Int) : ℚ × PID :=
  let _ := timestamp  -- the body never reads `timestamp`
  let error := setpoint - temperature
  let pid := { pid with integral := pid.integral + error }
  let derivative := error - pid.previousError
  let output := pid.Kp * error + pid.Ki * pid.integral + pid.Kd * derivative
  let pid := { pid with previousError := error }
  (output, pid)

/-- Global `var globalPID = PID{Kp: 2.0, Ki: 0.5, Kd: 0.1}` (lines 110-114); the other
fields carry Go zero values. -/
def globalPID : PID :=
  { Kp := 2, Ki := 1 / 2, Kd := 1 / 10, previousError := 0, integral := 0, updated := false }

/-- Method `func (pid *PID) UpdateParams(kp, ki, kd float64)` (lines 116-121). -/
def PID.UpdateParams (pid : PID) (kp ki kd : ℚ) : PID :=
  let pid := { pid with Kp := kp, Ki := ki, Kd := kd }
  { pid with updated := true }

/-- Method `func (pid *PID) GetParams() (kp, ki, kd float64)` (lines 123-127); the state
is not modified. -/
def PID.GetParams (pid : PID) : ℚ × ℚ × ℚ :=
  (pid.Kp, pid.Ki, pid.Kd)

/-- Method `func (pid *PID) ResetUpdateFlag()` (lines 129-133). -/
def PID.ResetUpdateFlag (pid : PID) : PID :=
  { pid with updated := false }

/-! ## Sequences of method calls -/

/-- One call of a `PID` method with its arguments. -/
inductive Op where
  | calculate (setpoint temperature : ℚ) (timestamp : Int)
  | updateParams (kp ki kd : ℚ)
  | getParams
  | resetUpdateFlag
  deriving DecidableEq, Repr

/-- What a method call hands back to its caller. -/
inductive Ret where
  | output (value : ℚ)
  | gains (kp ki kd : ℚ)
  | unit
  deriving DecidableEq, Repr

/-- Perform one method call: the returned value and the state after it. -/
def PID.step (pid : PID) : Op → Ret × PID
  | .calculate setpoint temperature timestamp =>
      let r := pid.Calculate setpoint temperature timestamp
      (.output r.1, r.2)
  | .updateParams kp ki kd => (.unit, pid.UpdateParams kp ki kd)
  | .getParams =>
      let g := pid.GetParams
      (.gains g.1 g.2.1 g.2.2, pid)
  | .resetUpdateFlag => (.unit, pid.ResetUpdateFlag)

/-- Perform a sequence of method calls in order: the returned values, one per
call, and the final state. -/
def PID.run (pid : PID) : List Op → List Ret × PID
  | [] => ([], pid)
  | op :: ops =>
      let r := pid.step op
      let rest := r.2.run ops
      (r.1 :: rest.1, rest.2)

/-- The temperatures passed to the `Calculate` calls of a sequence, in order. -/
def calcTemperatures : List Op → List ℚ
  | [] => []
  | .calculate _ temperature _ :: ops => temperature :: calcTemperatures ops
  | _ :: ops => calcTemperatures ops

/-- The sum of `setpoint - temperature` over the `Calculate` calls of a sequence,
each call with its own arguments. -/
def errorSum : List Op → ℚ
  | [] => 0
  | .calculate setpoint temperature _ :: ops => (setpoint - temperature) + errorSum ops
  | _ :: ops => errorSum ops

/-- Number of `Calculate` calls in a sequence. -/
def calcCount : List Op → Nat
  | [] => 0
  | .calculate _ _ _ :: ops => calcCount ops + 1
  | _ :: ops => calcCount ops

/-- Every `Calculate` call of the sequence is made with the given setpoint. -/
def Op.usesSetpoint (setpoint : ℚ) : Op → Prop
  | .calculate sp _ _ => sp = setpoint
  | _ => True

/-- Every `Calculate` call of the sequence has error `setpoint - temperature = e`. -/
def Op.hasError (e : ℚ) : Op → Prop
  | .calculate sp t _ => sp - t = e
  | _ => True

/-- Gains handed to the most recent `UpdateParams` call of a sequence, or the
given defaults when the sequence has none. -/
def lastGains (defaults : ℚ × ℚ × ℚ) : List Op → ℚ × ℚ × ℚ
  | [] => defaults
  | .updateParams kp ki kd :: ops => lastGains (kp, ki, kd) ops
  | _ :: ops => lastGains defaults ops

/-! ## Sensor reader -/

/-- The two ways `readTemperature` fails (lines 179-181 and 187-189). -/
inductive ReadError where
  | openFailed
  | scanFailed
  deriving DecidableEq, Repr

/-- Function `func readTemperature(path string) (float64, int64, error)` (lines 177-192).

The file system is the function `fs`, giving the content of the file at a path,
or `none` when `os.Open` fails.  `fscanf` stands for the library call
`fmt.Fscanf(file, "%f,%d\n", &temperature, &timestamp)`: the scanned pair, or
`none` when it returns an error. -/
def readTemperature (fs : String → Option String) (fscanf : String → Option (ℚ × Int))
    (path : String) : Except ReadError (ℚ × Int) :=
  match fs path with
  | none => .error .openFailed
  | some file =>
    match fscanf file with
    | none => .error .scanFailed
    | some (temperature, timestamp) => .ok (temperature, timestamp)

/-! ## Control loop -/

/-- Lines written with `fmt.Printf` / `fmt.Println` by the loop. -/
inductive LogLine where
  | keventFailed
  | readFailed (err : ReadError)
  | paramsReloaded
  | status (temperature heatingOutput : ℚ) (timestamp : Int)
  deriving DecidableEq, Repr

/-- Observable actions of the loop, in program order.  `go controlHeating(x)`
and `go controlCooling(b)` start a goroutine each; the action recorded is the
dispatch, with its argument. -/
inductive Effect where
  | print (line : LogLine)
  | controlHeating (output : ℚ)
  | controlCooling (state : Bool)
  deriving DecidableEq, Repr

/-- What the loop meets at one wake-up: whether `unix.Kevent` returned without
error, and the file system at that moment. -/
structure Wake where
  keventOk : Bool
  fs : String → Option String

/-- The `tempFile` constant of `PidDaemon` (line 22). -/
def tempFile : String := "/path/to/temperature/file"

/-- One pass through the body of the `for` loop of `PidDaemon` (lines 39-77):
the controller state and the actions issued by that pass. -/
def PidDaemon.iteration (fscanf : String → Option (ℚ × Int)) (setpoint : ℚ)
    (pid : PID) (w : Wake) : PID × List Effect :=
  if !w.keventOk then
    (pid, [.print .keventFailed])
  else
    match readTemperature w.fs fscanf tempFile with
    | .error err => (pid, [.print (.readFailed err)])
    | .ok (temperature, timestamp) =>
      let reload : PID × List Effect :=
        if pid.updated then (pid.ResetUpdateFlag, [.print .paramsReloaded]) else (pid, [])
      let result := reload.1.Calculate setpoint temperature timestamp
      let heatingOutput := result.1
      let heating : List Effect :=
        if heatingOutput > 0 then [.controlHeating heatingOutput] else []
      let cooling : List Effect :=
        if temperature > setpoint then [.controlCooling true] else [.controlCooling false]
      (result.2, reload.2 ++ heating ++ cooling
        ++ [.print (.status temperature heatingOutput timestamp)])

/-- The loop of `PidDaemon` over a finite run of wake-ups: the state is threaded
through the passes and the actions are concatenated. -/
def PidDaemon.loop (fscanf : String → Option (ℚ × Int)) (setpoint : ℚ) :
    PID → List Wake → PID × List Effect
  | pid, [] => (pid, [])
  | pid, w :: ws =>
      let r := PidDaemon.iteration fscanf setpoint pid w
      let rest := PidDaemon.loop fscanf setpoint r.1 ws
      (rest.1, r.2 ++ rest.2)

/-- The magnitudes of the heating commands among a list of actions, in order. -/
def heatingCommands : List Effect → List ℚ
  | [] => []
  | .controlHeating output :: es => output :: heatingCommands es
  | _ :: es => heatingCommands es

/-- The arguments of the cooling commands among a list of actions, in order. -/
def coolingCommands : List Effect → List Bool
  | [] => []
  | .controlCooling state :: es => state :: coolingCommands es
  | _ :: es => coolingCommands es

/-! ## HTTP tuning handler -/

/-- The part of `*http.Request` that `httpHandler` reads. -/
structure Request where
  method : String
  body : String

/-- Response bodies written by `httpHandler`; `gainsJson` is the two-decimal
rendering of the three gains produced by `fmt.Sprintf` (line 152). -/
inductive Body where
  | text (s : String)
  | gainsJson (kp ki kd : ℚ)
  deriving DecidableEq, Repr

/-- Status code and body written to the `http.ResponseWriter`. -/
structure Response where
  status : Nat
  body : Body
  deriving DecidableEq, Repr

/-- Function `func httpHandler(w http.ResponseWriter, r *http.Request)` (lines 135-157) on
the global controller state.  `decode` stands for
`json.NewDecoder(r.Body).Decode(&params)`: the decoded `kp`, `ki`, `kd`, or
`none` when it returns an error.  Returns the response, the state after the
request and the `PID` method calls made. -/
def httpHandler (decode : String → Option (ℚ × ℚ × ℚ)) (pid : PID) (r : Request) :
    Response × PID × List Op :=
  if r.method = "POST" then
    match decode r.body with
    | none => ({ status := 400, body := .text "Invalid JSON\n" }, pid, [])
    | some (kp, ki, kd) =>
      ({ status := 200, body := .text "PID parameters updated successfully" },
        pid.UpdateParams kp ki kd, [.updateParams kp ki kd])
  else if r.method = "GET" then
    let g := pid.GetParams
    ({ status := 200, body := .gainsJson g.1 g.2.1 g.2.2 }, pid, [.getParams])
  else
    ({ status := 405, body := .text "Invalid method\n" }, pid, [])

/-! ## Lock discipline -/

/-- The fields of `PID` other than the lock. -/
inductive Field where
  | Kp | Ki | Kd | previousError | integral | updated
  deriving DecidableEq, Repr

/-- Steps of one thread that concern the controller state: taking and releasing
`pid.lock`, and reading or writing a field. -/
inductive Access where
  | lock
  | unlock
  | read (f : Field)
  | write (f : Field)
  deriving DecidableEq, Repr

/-- Accesses made by `Calculate` (lines 98-107), in program order. -/
def PID.CalculateAccesses : List Access :=
  [.lock,
   .read .integral, .write .integral,
   .read .previousError,
   .read .Kp, .read .Ki, .read .integral, .read .Kd,
   .write .previousError,
   .unlock]

/-- Accesses made by `UpdateParams` (lines 117-120). -/
def PID.UpdateParamsAccesses : List Access :=
  [.lock, .write .Kp, .write .Ki, .write .Kd, .write .updated, .unlock]

/-- Accesses made by `GetParams` (lines 124-126). -/
def PID.GetParamsAccesses : List Access :=
  [.lock, .read .Kp, .read .Ki, .read .Kd, .unlock]

/-- Accesses made by `ResetUpdateFlag` (lines 130-132). -/
def PID.ResetUpdateFlagAccesses : List Access :=
  [.lock, .write .updated, .unlock]

/-- Accesses made by one method call. -/
def Op.accesses : Op → List Access
  | .calculate _ _ _ => PID.CalculateAccesses
  | .updateParams _ _ _ => PID.UpdateParamsAccesses
  | .getParams => PID.GetParamsAccesses
  | .resetUpdateFlag => PID.ResetUpdateFlagAccesses

/-- Accesses made by `httpHandler`: those of the method calls it makes. -/
def httpHandlerAccesses (decode : String → Option (ℚ × ℚ × ℚ)) (pid : PID) (r : Request) :
    List Access :=
  ((httpHandler decode pid r).2.2.map Op.accesses).flatten

/-- Accesses made by one pass of the `PidDaemon` loop: the test
`if globalPID.updated` (line 55), then the calls of `ResetUpdateFlag` (line 57,
when the flag is set) and `Calculate` (line 61). -/
def PidDaemon.iterationAccesses (fscanf : String → Option (ℚ × Int)) (pid : PID) (w : Wake) :
    List Access :=
  if !w.keventOk then
    []
  else
    match readTemperature w.fs fscanf tempFile with
    | .error _ => []
    | .ok _ =>
      [.read .updated]
        ++ (if pid.updated then PID.ResetUpdateFlagAccesses else [])
        ++ PID.CalculateAccesses

/-- Scan a thread's accesses with the lock state `held`: `true` when every field
read and write happens while the lock is held, the lock is taken only when
free, and released only when held. -/
def lockDiscipline : Bool → List Access → Bool
  | _, [] => true
  | held, .lock :: as => !held && lockDiscipline true as
  | held, .unlock :: as => held && lockDiscipline false as
  | held, .read _ :: as => held && lockDiscipline held as
  | held, .write _ :: as => held && lockDiscipline held as

/-- The call is an `UpdateParams`. -/
def Op.isUpdateParams : Op → Bool
  | .updateParams _ _ _ => true
  | _ => false

/-! ## A concrete run, used to instantiate the statements below -/

/-- Controller state after the first sample of the scenario (setpoint 25,
temperature 20): default gains, `integral = previousError = 5`. -/
def afterFirstSample : PID :=
  { Kp := 2, Ki := 1 / 2, Kd := 1 / 10, previousError := 5, integral := 5, updated := false }

/-- A scanner that knows two records: it reads `27.0,2` as the sample
(27.0, 2) and `20.0,1` as (20.0, 1), and fails on anything else. -/
def sampleScan (file : String) : Option (ℚ × Int) :=
  if file = "27.0,2\n" then some (27, 2)
  else if file = "20.0,1\n" then some (20, 1)
  else none

/-- A wake-up at which the sensor file holds the record `27.0,2`. -/
def wakeWith27 : Wake :=
  { keventOk := true, fs := fun path => if path = tempFile then some "27.0,2\n" else none }

/-- A wake-up at which the sensor file holds a non-numeric temperature. -/
def wakeMalformed : Wake :=
  { keventOk := true, fs := fun path => if path = tempFile then some "hot,2\n" else none }

/-- A JSON decoder that accepts one body, with all three gains 1.0, and rejects
every other body. -/
def sampleDecode (body : String) : Option (ℚ × ℚ × ℚ) :=
  if body = "ones" then some (1, 1, 1) else none

/-! ## Auxiliary lemmas -/

theorem PID.run_nil (pid : PID) : pid.run [] = ([], pid) := rfl

theorem PID.run_cons (pid : PID) (op : Op) (ops : List Op) :
    pid.run (op :: ops) = ((pid.step op).1 :: ((pid.step op).2.run ops).1,
      ((pid.step op).2.run ops).2) := rfl

theorem PID.run_append (pid : PID) (xs ys : List Op) :
    pid.run (xs ++ ys) = ((pid.run xs).1 ++ ((pid.run xs).2.run ys).1,
      ((pid.run xs).2.run ys).2) := by
  induction xs generalizing pid with
  | nil => simp [PID.run_nil]
  | cons x xs ih => simp [PID.run_cons, ih]

theorem PID.run_length (pid : PID) (ops : List Op) : (pid.run ops).1.length = ops.length := by
  induction ops generalizing pid with
  | nil => simp [PID.run_nil]
  | cons x xs ih => simp [PID.run_cons, ih]

/-- The integral after a sequence of calls is the integral before it plus the
errors of the `Calculate` calls; no other method touches it. -/
theorem PID.run_integral (pid : PID) (ops : List Op) :
    (pid.run ops).2.integral = pid.integral + errorSum ops := by
  induction ops generalizing pid with
  | nil => simp [PID.run_nil, errorSum]
  | cons op ops ih =>
    rw [PID.run_cons]
    cases op <;>
      simp [ih, PID.step, PID.Calculate, PID.UpdateParams, PID.GetParams,
        PID.ResetUpdateFlag, errorSum, add_assoc]

/-- The gains after a sequence of calls are those of its last `UpdateParams`. -/
theorem PID.run_gains (pid : PID) (ops : List Op) :
    (pid.run ops).2.GetParams = lastGains pid.GetParams ops := by
  induction ops generalizing pid with
  | nil => simp [PID.run_nil, lastGains]
  | cons op ops ih =>
    rw [PID.run_cons]
    cases op <;> (simp only [PID.step]; rw [ih]; rfl)

theorem errorSum_of_usesSetpoint (setpoint : ℚ) (ops : List Op)
    (h : ∀ op ∈ ops, op.usesSetpoint setpoint) :
    errorSum ops = ((calcTemperatures ops).map (fun t => setpoint - t)).sum := by
  induction ops with
  | nil => simp [errorSum, calcTemperatures]
  | cons op ops ih =>
    have hop := h op (List.mem_cons_self _ _)
    have ih := ih (fun o ho => h o (List.mem_cons_of_mem _ ho))
    cases op <;> simp_all [errorSum, calcTemperatures, Op.usesSetpoint]

theorem errorSum_of_hasError (e : ℚ) (ops : List Op)
    (h : ∀ op ∈ ops, op.hasError e) :
    errorSum ops = (calcCount ops : ℚ) * e := by
  induction ops with
  | nil => simp [errorSum, calcCount]
  | cons op ops ih =>
    have hop := h op (List.mem_cons_self _ _)
    have ih := ih (fun o ho => h o (List.mem_cons_of_mem _ ho))
    cases op <;> simp_all [errorSum, calcCount, Op.hasError]
    ring

/-- Where the gains of `lastGains` come from: the defaults when the sequence has
no `UpdateParams`, otherwise the arguments of its last `UpdateParams`. -/
theorem lastGains_spec (defaults : ℚ × ℚ × ℚ) (ops : List Op) :
    ((∀ op ∈ ops, op.isUpdateParams = false) ∧ lastGains defaults ops = defaults) ∨
    (∃ a b kp ki kd, ops = a ++ Op.updateParams kp ki kd :: b ∧
      (∀ op ∈ b, op.isUpdateParams = false) ∧ lastGains defaults ops = (kp, ki, kd)) := by
  induction ops generalizing defaults with
  | nil => left; simp [lastGains]
  | cons op ops ih =>
    have step : ∀ d : ℚ × ℚ × ℚ, lastGains defaults (op :: ops) = lastGains d ops →
        (op.isUpdateParams = false → d = defaults) →
        (op.isUpdateParams = true → op = Op.updateParams d.1 d.2.1 d.2.2) →
        ((∀ o ∈ op :: ops, o.isUpdateParams = false) ∧
            lastGains defaults (op :: ops) = defaults) ∨
        (∃ a b kp ki kd, op :: ops = a ++ Op.updateParams kp ki kd :: b ∧
          (∀ o ∈ b, o.isUpdateParams = false) ∧
          lastGains defaults (op :: ops) = (kp, ki, kd)) := by
      intro d hd hno hyes
      rcases ih d with ⟨hall, hl⟩ | ⟨a, b, kp, ki, kd, hops, hb, hl⟩
      · cases hu : op.isUpdateParams with
        | false =>
          left
          refine ⟨?_, ?_⟩
          · intro o ho
            rcases List.mem_cons.1 ho with rfl | ho
            · exact hu
            · exact hall o ho
          · rw [hd, hl, hno hu]
        | true =>
          right
          refine ⟨[], ops, d.1, d.2.1, d.2.2, ?_, hall, ?_⟩
          · simp [← hyes hu]
          · rw [hd, hl]
      · right
        refine ⟨op :: a, b, kp, ki, kd, ?_, hb, ?_⟩
        · simp [hops]
        · rw [hd, hl]
    cases op with
    | calculate sp t ts => exact step defaults rfl (fun _ => rfl) (by simp [Op.isUpdateParams])
    | updateParams kp ki kd =>
      exact step (kp, ki, kd) rfl (by simp [Op.isUpdateParams]) (fun _ => rfl)
    | getParams => exact step defaults rfl (fun _ => rfl) (by simp [Op.isUpdateParams])
    | resetUpdateFlag => exact step defaults rfl (fun _ => rfl) (by simp [Op.isUpdateParams])

/-! ## Controller state: the claims -/

/-- C1, as stated, at its own scenario: with gains (2, 0.5, 0.1), zero integral
and previous error, setpoint 25 and temperature 20, `Calculate` does not return
12.5; it returns `2*5 + 0.5*5 + 0.1*5 = 13`. -/
theorem Calculate_scenario_output_not_12_5 :
    (globalPID.Calculate 25 20 1).1 = 13 ∧ (globalPID.Calculate 25 20 1).1 ≠ 25 / 2 := by
  norm_num [PID.Calculate, globalPID]

/-- C1, amended. `Calculate(setpoint, temperature, timestamp)` returns
`Kp*e + Ki*(I+e) + Kd*(e-P)` with `e = setpoint - temperature`, leaves
`integral = I+e`, `previousError = e`, and the gains and the `updated` flag as
they were; neither the result nor the new state depends on `timestamp`.  With
gains (2, 0.5, 0.1), zero integral and previous error, setpoint 25 and
temperature 20, the output is 13 and integral and previous error are 5. -/
theorem Calculate_postcondition (s : PID) (setpoint temperature : ℚ) (timestamp : Int) :
    ((s.Calculate setpoint temperature timestamp).1
        = s.Kp * (setpoint - temperature) + s.Ki * (s.integral + (setpoint - temperature))
          + s.Kd * ((setpoint - temperature) - s.previousError)
      ∧ (s.Calculate setpoint temperature timestamp).2.integral
          = s.integral + (setpoint - temperature)
      ∧ (s.Calculate setpoint temperature timestamp).2.previousError = setpoint - temperature
      ∧ (s.Calculate setpoint temperature timestamp).2.Kp = s.Kp
      ∧ (s.Calculate setpoint temperature timestamp).2.Ki = s.Ki
      ∧ (s.Calculate setpoint temperature timestamp).2.Kd = s.Kd
      ∧ (s.Calculate setpoint temperature timestamp).2.updated = s.updated
      ∧ ∀ other : Int,
          s.Calculate setpoint temperature other = s.Calculate setpoint temperature timestamp)
    ∧ (globalPID.Calculate 25 20 1).1 = 13
    ∧ (globalPID.Calculate 25 20 1).2.integral = 5
    ∧ (globalPID.Calculate 25 20 1).2.previousError = 5 := by
  refine ⟨⟨rfl, rfl, rfl, rfl, rfl, rfl, rfl, fun _ => rfl⟩, ?_, ?_, ?_⟩ <;>
    norm_num [PID.Calculate, globalPID]

/-- C2. Starting from `integral = 0`, after any sequence of `Calculate`,
`UpdateParams`, `GetParams` and `ResetUpdateFlag` calls whose `Calculate` calls
all use the same setpoint, the integral is the sum of `setpoint - t_i` over the
`Calculate` calls of the sequence. -/
theorem integral_running_sum (s : PID) (h0 : s.integral = 0) (setpoint : ℚ) (ops : List Op)
    (hsp : ∀ op ∈ ops, op.usesSetpoint setpoint) :
    (s.run ops).2.integral = ((calcTemperatures ops).map (fun t => setpoint - t)).sum := by
  rw [PID.run_integral, h0, zero_add, errorSum_of_usesSetpoint setpoint ops hsp]

/-- Instance of C2: two samples at setpoint 25 with a retune, a read of the gains
and an acknowledgement in between. -/
theorem integral_running_sum_witness :
    globalPID.integral = 0
    ∧ (globalPID.run [.calculate 25 20 1, .updateParams 1 1 1, .getParams,
        .calculate 25 27 2, .resetUpdateFlag]).2.integral
      = ((calcTemperatures [.calculate 25 20 1, .updateParams 1 1 1, .getParams,
        .calculate 25 27 2, .resetUpdateFlag]).map (fun t => (25 : ℚ) - t)).sum :=
  ⟨rfl, integral_running_sum globalPID rfl 25 _ (by simp [Op.usesSetpoint])⟩

/-- C3. `UpdateParams(kp, ki, kd)` sets the gains to `(kp, ki, kd)` and the
`updated` flag to true and keeps `integral` and `previousError`; a `Calculate`
made right after it returns `kp*e + ki*(I+e) + kd*(e-P)` with the integral `I`
and previous error `P` from before the update. -/
theorem UpdateParams_frame (s : PID) (kp ki kd setpoint temperature : ℚ) (timestamp : Int) :
    (s.UpdateParams kp ki kd).Kp = kp
    ∧ (s.UpdateParams kp ki kd).Ki = ki
    ∧ (s.UpdateParams kp ki kd).Kd = kd
    ∧ (s.UpdateParams kp ki kd).updated = true
    ∧ (s.UpdateParams kp ki kd).integral = s.integral
    ∧ (s.UpdateParams kp ki kd).previousError = s.previousError
    ∧ ((s.UpdateParams kp ki kd).Calculate setpoint temperature timestamp).1
        = kp * (setpoint - temperature) + ki * (s.integral + (setpoint - temperature))
          + kd * ((setpoint - temperature) - s.previousError) :=
  ⟨rfl, rfl, rfl, rfl, rfl, rfl, rfl⟩

/-- C4. In any sequence of method calls on `globalPID`, a `GetParams` call
returns one whole triple: the defaults (2, 0.5, 0.1) when no `UpdateParams`
came before it, otherwise the three arguments of the most recent `UpdateParams`
before it.  After `UpdateParams(1, 1, 1)`, `GetParams` returns (1, 1, 1). -/
theorem GetParams_no_torn_read (before after : List Op) :
    (∃ kp ki kd,
      (globalPID.run (before ++ Op.getParams :: after)).1[before.length]?
          = some (Ret.gains kp ki kd)
      ∧ (((∀ op ∈ before, op.isUpdateParams = false) ∧ (kp, ki, kd) = (2, 1 / 2, 1 / 10))
        ∨ ∃ a b, before = a ++ Op.updateParams kp ki kd :: b
            ∧ ∀ op ∈ b, op.isUpdateParams = false))
    ∧ (globalPID.run [.updateParams 1 1 1, .getParams]).1 = [.unit, .gains 1 1 1] := by
  refine ⟨?_, rfl⟩
  have hret : (globalPID.run (before ++ Op.getParams :: after)).1[before.length]?
      = some (Ret.gains (globalPID.run before).2.GetParams.1
          (globalPID.run before).2.GetParams.2.1 (globalPID.run before).2.GetParams.2.2) := by
    rw [PID.run_append]
    have hlen := PID.run_length globalPID before
    simp only [PID.run_cons, PID.step]
    rw [List.getElem?_append_right (by omega)]
    simp [hlen]
  rw [PID.run_gains] at hret
  rcases lastGains_spec globalPID.GetParams before with ⟨hall, hl⟩ | ⟨a, b, kp, ki, kd, hb, hnb, hl⟩
  · refine ⟨2, 1 / 2, 1 / 10, ?_, Or.inl ⟨hall, rfl⟩⟩
    rw [hret, hl]
    rfl
  · refine ⟨kp, ki, kd, ?_, Or.inr ⟨a, b, hb, hnb⟩⟩
    rw [hret, hl]

/-! ## Control loop: the claims -/

/-- A pass of the loop whose wait and sensor read both succeed. -/
theorem PidDaemon.iteration_ok (fscanf : String → Option (ℚ × Int)) (setpoint : ℚ) (pid : PID)
    (w : Wake) (temperature : ℚ) (timestamp : Int) (hk : w.keventOk = true)
    (hr : readTemperature w.fs fscanf tempFile = .ok (temperature, timestamp)) :
    PidDaemon.iteration fscanf setpoint pid w =
      (((if pid.updated then pid.ResetUpdateFlag else pid).Calculate
          setpoint temperature timestamp).2,
        (if pid.updated then [Effect.print .paramsReloaded] else [])
        ++ (if 0 < ((if pid.updated then pid.ResetUpdateFlag else pid).Calculate
              setpoint temperature timestamp).1
            then [Effect.controlHeating ((if pid.updated then pid.ResetUpdateFlag else pid).Calculate
              setpoint temperature timestamp).1] else [])
        ++ (if setpoint < temperature then [Effect.controlCooling true]
            else [Effect.controlCooling false])
        ++ [Effect.print (.status temperature
              ((if pid.updated then pid.ResetUpdateFlag else pid).Calculate
                setpoint temperature timestamp).1 timestamp)]) := by
  unfold PidDaemon.iteration
  rw [hr]
  cases hu : pid.updated <;> simp [hk]

/-- A pass of the loop whose sensor read fails. -/
theorem PidDaemon.iteration_error (fscanf : String → Option (ℚ × Int)) (setpoint : ℚ) (pid : PID)
    (w : Wake) (err : ReadError) (hk : w.keventOk = true)
    (hr : readTemperature w.fs fscanf tempFile = .error err) :
    PidDaemon.iteration fscanf setpoint pid w = (pid, [.print (.readFailed err)]) := by
  unfold PidDaemon.iteration
  rw [hr]
  simp [hk]

theorem heatingCommands_append (xs ys : List Effect) :
    heatingCommands (xs ++ ys) = heatingCommands xs ++ heatingCommands ys := by
  induction xs with
  | nil => rfl
  | cons x xs ih => cases x <;> simp [heatingCommands, ih]

theorem coolingCommands_append (xs ys : List Effect) :
    coolingCommands (xs ++ ys) = coolingCommands xs ++ coolingCommands ys := by
  induction xs with
  | nil => rfl
  | cons x xs ih => cases x <;> simp [coolingCommands, ih]

/-- The value `Calculate` returns does not depend on the `updated` flag. -/
theorem Calculate_output_after_reload (pid : PID) (setpoint temperature : ℚ) (timestamp : Int) :
    ((if pid.updated then pid.ResetUpdateFlag else pid).Calculate setpoint temperature timestamp).1
      = (pid.Calculate setpoint temperature timestamp).1 := by
  cases hu : pid.updated <;> simp [PID.Calculate, PID.ResetUpdateFlag]

/-- C5. In a pass of the loop with a successfully read sample, a heating command
is issued exactly when the value returned by that pass's `Calculate` call is
positive; it is then issued once, with that value as magnitude, and for a value
at most zero no heating command is issued. -/
theorem heating_gate (fscanf : String → Option (ℚ × Int)) (setpoint : ℚ) (pid : PID)
    (w : Wake) (temperature : ℚ) (timestamp : Int) (hk : w.keventOk = true)
    (hr : readTemperature w.fs fscanf tempFile = .ok (temperature, timestamp)) :
    ((∃ m, Effect.controlHeating m ∈ (PidDaemon.iteration fscanf setpoint pid w).2)
        ↔ 0 < ((if pid.updated then pid.ResetUpdateFlag else pid).Calculate
                setpoint temperature timestamp).1)
    ∧ (0 < ((if pid.updated then pid.ResetUpdateFlag else pid).Calculate
              setpoint temperature timestamp).1 →
        heatingCommands (PidDaemon.iteration fscanf setpoint pid w).2
          = [((if pid.updated then pid.ResetUpdateFlag else pid).Calculate
              setpoint temperature timestamp).1])
    ∧ (((if pid.updated then pid.ResetUpdateFlag else pid).Calculate
              setpoint temperature timestamp).1 ≤ 0 →
        heatingCommands (PidDaemon.iteration fscanf setpoint pid w).2 = []
        ∧ ∀ m, Effect.controlHeating m ∉ (PidDaemon.iteration fscanf setpoint pid w).2) := by
  rw [PidDaemon.iteration_ok fscanf setpoint pid w temperature timestamp hk hr]
  generalize ((if pid.updated then pid.ResetUpdateFlag else pid).Calculate
    setpoint temperature timestamp).1 = out
  have hmem : (∃ m, Effect.controlHeating m ∈
      ((if pid.updated then [Effect.print .paramsReloaded] else [])
        ++ (if 0 < out then [Effect.controlHeating out] else [])
        ++ (if setpoint < temperature then [Effect.controlCooling true]
            else [Effect.controlCooling false])
        ++ [Effect.print (.status temperature out timestamp)])) ↔ 0 < out := by
    by_cases ho : 0 < out <;> by_cases hc : setpoint < temperature <;>
      cases pid.updated <;> simp [ho, hc]
  have hcmd : heatingCommands
      ((if pid.updated then [Effect.print .paramsReloaded] else [])
        ++ (if 0 < out then [Effect.controlHeating out] else [])
        ++ (if setpoint < temperature then [Effect.controlCooling true]
            else [Effect.controlCooling false])
        ++ [Effect.print (.status temperature out timestamp)])
      = if 0 < out then [out] else [] := by
    by_cases ho : 0 < out <;> by_cases hc : setpoint < temperature <;>
      cases pid.updated <;> simp [ho, hc, heatingCommands]
  refine ⟨hmem, ?_, ?_⟩
  · intro ho
    simp only [] at hcmd ⊢
    rw [hcmd, if_pos ho]
  · intro ho
    have hn : ¬ 0 < out := not_lt.2 ho
    refine ⟨?_, ?_⟩
    · simp only [] at hcmd ⊢
      rw [hcmd, if_neg hn]
    · intro m hm
      exact hn (hmem.1 ⟨m, hm⟩)

/-- Instance of C5: from the state after the first scenario sample, setpoint 25
and temperature 27 give output -3.2 and no heating command. -/
theorem heating_gate_witness :
    wakeWith27.keventOk = true
    ∧ readTemperature wakeWith27.fs sampleScan tempFile = .ok (27, 2)
    ∧ ((if afterFirstSample.updated then afterFirstSample.ResetUpdateFlag
          else afterFirstSample).Calculate 25 27 2).1 = -(16 / 5)
    ∧ heatingCommands (PidDaemon.iteration sampleScan 25 afterFirstSample wakeWith27).2 = [] :=
  ⟨rfl, by simp [readTemperature, wakeWith27, sampleScan],
    by norm_num [afterFirstSample, PID.Calculate],
    ((heating_gate sampleScan 25 afterFirstSample wakeWith27 27 2 rfl
      (by simp [readTemperature, wakeWith27, sampleScan])).2.2
      (by norm_num [afterFirstSample, PID.Calculate])).1⟩

/-- C6. In a pass of the loop with a successfully read sample, exactly one
cooling command is issued, with argument true when `temperature > setpoint` and
false otherwise; any other pass with the same temperature and setpoint, from
whatever controller state, issues the same cooling command. -/
theorem cooling_pure_function (fscanf : String → Option (ℚ × Int)) (setpoint : ℚ) (pid : PID)
    (w : Wake) (temperature : ℚ) (timestamp : Int) (hk : w.keventOk = true)
    (hr : readTemperature w.fs fscanf tempFile = .ok (temperature, timestamp)) :
    coolingCommands (PidDaemon.iteration fscanf setpoint pid w).2
        = [decide (temperature > setpoint)]
    ∧ ∀ (fscanf2 : String → Option (ℚ × Int)) (pid2 : PID) (w2 : Wake) (timestamp2 : Int),
        w2.keventOk = true →
        readTemperature w2.fs fscanf2 tempFile = .ok (temperature, timestamp2) →
        coolingCommands (PidDaemon.iteration fscanf2 setpoint pid2 w2).2
          = coolingCommands (PidDaemon.iteration fscanf setpoint pid w).2 := by
  have key : ∀ (f : String → Option (ℚ × Int)) (p : PID) (v : Wake) (ts : Int),
      v.keventOk = true → readTemperature v.fs f tempFile = .ok (temperature, ts) →
      coolingCommands (PidDaemon.iteration f setpoint p v).2
        = [decide (temperature > setpoint)] := by
    intro f p v ts hv hf
    rw [PidDaemon.iteration_ok f setpoint p v temperature ts hv hf]
    generalize ((if p.updated then p.ResetUpdateFlag else p).Calculate
      setpoint temperature ts).1 = out
    by_cases ho : 0 < out <;> by_cases hc : setpoint < temperature <;>
      cases p.updated <;> simp [ho, hc, coolingCommands]
  refine ⟨key fscanf pid w timestamp hk hr, ?_⟩
  intro f2 p2 w2 ts2 hk2 hr2
  rw [key f2 p2 w2 ts2 hk2 hr2, key fscanf pid w timestamp hk hr]

/-- Instance of C6: at setpoint 25 and temperature 27 the one cooling command
is "on". -/
theorem cooling_pure_function_witness :
    wakeWith27.keventOk = true
    ∧ readTemperature wakeWith27.fs sampleScan tempFile = .ok (27, 2)
    ∧ coolingCommands (PidDaemon.iteration sampleScan 25 globalPID wakeWith27).2 = [true] :=
  ⟨rfl, by simp [readTemperature, wakeWith27, sampleScan],
    by
      have h := (cooling_pure_function sampleScan 25 globalPID wakeWith27 27 2 rfl
        (by simp [readTemperature, wakeWith27, sampleScan])).1
      rw [h]
      norm_num⟩

/-- C7. When `readTemperature` returns an error in a pass of the loop (which is
when the file cannot be opened or its content does not scan), the pass leaves
every field of the controller state as it was, the `updated` flag included,
issues no heating and no cooling command, and the loop goes on with the next
wake-up from the unchanged state. -/
theorem failed_read_skips_pass (fscanf : String → Option (ℚ × Int)) (setpoint : ℚ) (pid : PID)
    (w : Wake) (err : ReadError) (hk : w.keventOk = true)
    (hr : readTemperature w.fs fscanf tempFile = .error err) :
    (w.fs tempFile = none ∨ ∃ file, w.fs tempFile = some file ∧ fscanf file = none)
    ∧ (PidDaemon.iteration fscanf setpoint pid w).1 = pid
    ∧ heatingCommands (PidDaemon.iteration fscanf setpoint pid w).2 = []
    ∧ coolingCommands (PidDaemon.iteration fscanf setpoint pid w).2 = []
    ∧ (∀ e ∈ (PidDaemon.iteration fscanf setpoint pid w).2, e = .print (.readFailed err))
    ∧ ∀ ws : List Wake,
        (PidDaemon.loop fscanf setpoint pid (w :: ws)).1
            = (PidDaemon.loop fscanf setpoint pid ws).1
        ∧ heatingCommands (PidDaemon.loop fscanf setpoint pid (w :: ws)).2
            = heatingCommands (PidDaemon.loop fscanf setpoint pid ws).2
        ∧ coolingCommands (PidDaemon.loop fscanf setpoint pid (w :: ws)).2
            = coolingCommands (PidDaemon.loop fscanf setpoint pid ws).2 := by
  have hit := PidDaemon.iteration_error fscanf setpoint pid w err hk hr
  refine ⟨?_, ?_, ?_, ?_, ?_, ?_⟩
  · unfold readTemperature at hr
    cases hf : w.fs tempFile with
    | none => exact Or.inl rfl
    | some file =>
      right
      refine ⟨file, rfl, ?_⟩
      rw [hf] at hr
      cases hs : fscanf file with
      | none => rfl
      | some p =>
        simp [hs] at hr
  · rw [hit]
  · rw [hit]; rfl
  · rw [hit]; rfl
  · rw [hit]; simp
  · intro ws
    simp only [PidDaemon.loop, hit, heatingCommands_append, coolingCommands_append]
    simp [heatingCommands, coolingCommands]

/-- Instance of C7: a sensor record with a non-numeric temperature, met while a
gains update is still unacknowledged. -/
theorem failed_read_skips_pass_witness :
    wakeMalformed.keventOk = true
    ∧ readTemperature wakeMalformed.fs sampleScan tempFile = .error .scanFailed
    ∧ (PidDaemon.iteration sampleScan 25 (globalPID.UpdateParams 1 1 1) wakeMalformed).1
        = globalPID.UpdateParams 1 1 1 :=
  ⟨rfl, by simp [readTemperature, wakeMalformed, sampleScan],
    (failed_read_skips_pass sampleScan 25 (globalPID.UpdateParams 1 1 1) wakeMalformed
      .scanFailed rfl (by simp [readTemperature, wakeMalformed, sampleScan])).2.1⟩

/-! ## Tuning handler, windup and locking: the claims -/

/-- C9. A POST whose body fails to decode is answered with status 400 and
leaves every field of the controller state as it was, without any `PID` method
call; `httpHandler` calls `UpdateParams` only on a POST whose body decoded, and
then with the decoded gains. -/
theorem malformed_post_rejected (decode : String → Option (ℚ × ℚ × ℚ)) (pid : PID) (r : Request)
    (hm : r.method = "POST") (hd : decode r.body = none) :
    ((httpHandler decode pid r).1.status = 400
      ∧ (httpHandler decode pid r).2.1 = pid
      ∧ (httpHandler decode pid r).2.2 = [])
    ∧ ∀ (pid2 : PID) (r2 : Request) (kp ki kd : ℚ),
        Op.updateParams kp ki kd ∈ (httpHandler decode pid2 r2).2.2 →
        r2.method = "POST" ∧ decode r2.body = some (kp, ki, kd) := by
  refine ⟨?_, ?_⟩
  · simp [httpHandler, hm, hd]
  · intro pid2 r2 kp ki kd hmem
    unfold httpHandler at hmem
    by_cases hp : r2.method = "POST"
    · refine ⟨hp, ?_⟩
      rw [if_pos hp] at hmem
      cases hdec : decode r2.body with
      | none => simp [hdec] at hmem
      | some g =>
        obtain ⟨a, b, c⟩ := g
        simp [hdec] at hmem
        obtain ⟨rfl, rfl, rfl⟩ := hmem
        rfl
    · rw [if_neg hp] at hmem
      by_cases hg : r2.method = "GET" <;> simp [hg] at hmem

/-- Instance of C9: a POST with an undecodable body, sent after a retune and a
few samples. -/
theorem malformed_post_rejected_witness :
    (⟨"POST", "kp=abc"⟩ : Request).method = "POST"
    ∧ sampleDecode (⟨"POST", "kp=abc"⟩ : Request).body = none
    ∧ (httpHandler sampleDecode afterFirstSample ⟨"POST", "kp=abc"⟩).1.status = 400
    ∧ (httpHandler sampleDecode afterFirstSample ⟨"POST", "kp=abc"⟩).2.1 = afterFirstSample :=
  ⟨rfl, by simp [sampleDecode],
    (malformed_post_rejected sampleDecode afterFirstSample ⟨"POST", "kp=abc"⟩ rfl
      (by simp [sampleDecode])).1.1,
    (malformed_post_rejected sampleDecode afterFirstSample ⟨"POST", "kp=abc"⟩ rfl
      (by simp [sampleDecode])).1.2.1⟩

/-- C10. Starting from `integral = 0`, after a sequence of calls whose
`Calculate` calls all have the same error `e`, the integral is `n * e` with `n`
the number of `Calculate` calls, whatever the gains and the other calls in
between; so for `e ≠ 0` and any bound `B` some number `n` of such calls makes
`|integral| > B`. -/
theorem integral_windup (s : PID) (h0 : s.integral = 0) (e : ℚ) (ops : List Op)
    (herr : ∀ op ∈ ops, op.hasError e) :
    (s.run ops).2.integral = (calcCount ops : ℚ) * e
    ∧ (e ≠ 0 → ∀ B : ℚ, ∃ n : ℕ, ∀ (s2 : PID) (ops2 : List Op), s2.integral = 0 →
        (∀ op ∈ ops2, op.hasError e) → calcCount ops2 = n →
        B < |(s2.run ops2).2.integral|) := by
  refine ⟨?_, ?_⟩
  · rw [PID.run_integral, h0, zero_add, errorSum_of_hasError e ops herr]
  · intro he B
    have hpos : 0 < |e| := abs_pos.2 he
    obtain ⟨n, hn⟩ := exists_nat_gt (B / |e|)
    refine ⟨n, ?_⟩
    intro s2 ops2 h2 herr2 hcount
    rw [PID.run_integral, h2, zero_add, errorSum_of_hasError e ops2 herr2, hcount, abs_mul,
      Nat.abs_cast]
    exact (div_lt_iff₀ hpos).1 hn

/-- Instance of C10: three samples with error 5 and a retune in between leave
`integral = 3 * 5`. -/
theorem integral_windup_witness :
    globalPID.integral = 0
    ∧ (globalPID.run [.calculate 25 20 1, .updateParams 9 9 9, .calculate 25 20 2,
        .calculate 30 25 3]).2.integral
      = (calcCount [.calculate 25 20 1, .updateParams 9 9 9, .calculate 25 20 2,
        .calculate 30 25 3] : ℚ) * 5 :=
  ⟨rfl, (integral_windup globalPID rfl 5 _ (by norm_num [Op.hasError])).1⟩

/-- Every pass of the loop that gets as far as the controller reads
`globalPID.updated` before any lock is taken. -/
theorem PidDaemon.iterationAccesses_ok (fscanf : String → Option (ℚ × Int)) (pid : PID)
    (w : Wake) (temperature : ℚ) (timestamp : Int) (hk : w.keventOk = true)
    (hr : readTemperature w.fs fscanf tempFile = .ok (temperature, timestamp)) :
    lockDiscipline false (PidDaemon.iterationAccesses fscanf pid w) = false := by
  unfold PidDaemon.iterationAccesses
  rw [hr]
  simp [hk, lockDiscipline]

/-- C8, on the code. Each `PID` method and `httpHandler` touch the fields only
between taking and releasing the lock, but a pass of the `PidDaemon` loop that
reads a sample reads `updated` (line 55) with the lock not held, whatever the
controller state. -/
theorem updated_flag_read_without_lock :
    (∀ op : Op, lockDiscipline false op.accesses = true)
    ∧ (∀ (decode : String → Option (ℚ × ℚ × ℚ)) (pid : PID) (r : Request),
        lockDiscipline false (httpHandlerAccesses decode pid r) = true)
    ∧ (∀ pid : PID,
        (PidDaemon.iterationAccesses sampleScan pid wakeWith27).head? = some (.read .updated)
        ∧ lockDiscipline false (PidDaemon.iterationAccesses sampleScan pid wakeWith27) = false) := by
  refine ⟨?_, ?_, ?_⟩
  · intro op
    cases op <;> rfl
  · intro decode pid r
    unfold httpHandlerAccesses httpHandler
    by_cases hp : r.method = "POST"
    · rw [if_pos hp]
      cases hdec : decode r.body with
      | none => rfl
      | some g => rfl
    · rw [if_neg hp]
      by_cases hg : r.method = "GET"
      · rw [if_pos hg]; rfl
      · rw [if_neg hg]; rfl
  · intro pid
    have hr : readTemperature wakeWith27.fs sampleScan tempFile = .ok (27, 2) := by
      simp [readTemperature, wakeWith27, sampleScan]
    refine ⟨?_, PidDaemon.iterationAccesses_ok sampleScan pid wakeWith27 27 2 rfl hr⟩
    unfold PidDaemon.iterationAccesses
    rw [hr]
    simp [wakeWith27]

end Api
